import Mathlib

/-!
Verification of the `io-buffer-rs` byte-buffer library.

The development is a shallow embedding of the Rust sources:

* `src/utils.rs` : `safe_copy`, `set_zero`, `is_all_zero` over byte slices,
  modelled as functions over `List Nat` (a byte per element).
* `src/buffer.rs` : the packed `Buffer` value type.  The two `u32` fields
  `size` and `cap` are modelled as `Nat` kept below `2^32`; the bit
  operations of the source (`x | 2^31`, `x & (2^31 - 1)`, `x & 2^31 != 0`)
  are rendered arithmetically as `x + 2^31`, `x % 2^31` and `2^31 ≤ x`,
  which coincide with them on the `u32` range.
* Memory: the backing regions are modelled by an explicit store
  `Mem : Nat → List Nat` mapping an address (the `buf_ptr` of a buffer) to
  the bytes of the region allocated there.  Allocation takes the address
  chosen by the allocator and the (indeterminate) initial contents of the
  fresh region as explicit arguments.
* Panics (`assert!`, `panic!`, `debug_assert!`, slice-range panics and
  `.unwrap()` on `Err`) are modelled by `Option`: `none` is a panic.
  Recoverable failures (`Result<_, Errno>`) are modelled by `Except`.
* `debug_assert!` and the `#[cfg(debug_assertions)]` check in `as_mut`
  only run in checked builds; a `dbg : Bool` argument selects the build.
-/

set_option maxHeartbeats 1000000

namespace IoBuffer

/-! ### src/utils.rs -/

/-- `safe_copy(dst, src)` from `src/utils.rs`: copies the leading
`min(dst.len(), src.len())` bytes of `src` over the front of `dst` and
returns the count copied together with the resulting contents of `dst`. -/
def safe_copy (dst src : List Nat) : Nat × List Nat :=
  let dst_len := dst.length
  let src_len := src.length
  if src_len > dst_len then
    (dst_len, src.take dst_len)
  else if src_len < dst_len then
    (src_len, src ++ dst.drop src_len)
  else
    (dst_len, src)

/-- `set_zero(dst)` from `src/utils.rs`: `memset(dst, 0, dst.len())`. -/
def set_zero (dst : List Nat) : List Nat :=
  List.replicate dst.length 0

/-- `is_all_zero(s)` from `src/utils.rs`: true iff every byte is zero,
short-circuiting on the first non-zero byte. -/
def is_all_zero : List Nat → Bool
  | [] => true
  | c :: s => if c ≠ 0 then false else is_all_zero s

/-! ### Basic facts about the primitives -/

theorem safe_copy_eq (dst src : List Nat) :
    safe_copy dst src =
      (min dst.length src.length,
       src.take (min dst.length src.length) ++ dst.drop (min dst.length src.length)) := by
  unfold safe_copy
  rcases lt_trichotomy src.length dst.length with h | h | h
  · have hmin : min dst.length src.length = src.length := by omega
    simp [Nat.not_lt.mpr (Nat.le_of_lt h), h, hmin]
  · simp [h, List.drop_length]
  · have hmin : min dst.length src.length = dst.length := by omega
    simp [h, hmin, List.drop_length]

theorem set_zero_length (dst : List Nat) : (set_zero dst).length = dst.length := by
  simp [set_zero]

theorem safe_copy_snd_length (dst src : List Nat) :
    (safe_copy dst src).2.length = dst.length := by
  rw [safe_copy_eq]
  simp

/-! ### src/buffer.rs : the Buffer value type -/

/-- `MIN_ALIGN` from `src/buffer.rs` (512). -/
def MIN_ALIGN : Nat := 512

/-- `MAX_BUFFER_SIZE` from `src/buffer.rs` (`1 << 31`). -/
def MAX_BUFFER_SIZE : Nat := 2 ^ 31

/-- The `usize` modulus (64-bit targets): `usize` addition wraps mod `2^64`
in an unchecked build and panics on overflow in a checked build. -/
def USIZE_SIZE : Nat := 2 ^ 64

/-- The store of backing regions: an address (a buffer's `buf_ptr`) maps to
the bytes of the region allocated there. -/
def Mem : Type := Nat → List Nat

/-- Update the region at address `p`. -/
def setMem (m : Mem) (p : Nat) (v : List Nat) : Mem :=
  fun q => if q = p then v else m q

theorem setMem_same (m : Mem) (p : Nat) (v : List Nat) : setMem m p v p = v := by
  simp [setMem]

theorem setMem_other (m : Mem) (p q : Nat) (v : List Nat) (h : q ≠ p) :
    setMem m p v q = m q := by
  simp [setMem, h]

/-- `Errno` results surfaced by the allocation paths. -/
inductive Errno : Type
  | ENOMEM
deriving DecidableEq

/-- The `Buffer` struct of `src/buffer.rs`: the address of the backing region
plus the two packed `u32` fields.  The top bit of `size` is the `owned` flag,
its low 31 bits the length; the top bit of `cap` is the `mutable` flag, its
low 31 bits the capacity. -/
structure Buffer where
  buf_ptr : Nat
  size : Nat
  cap : Nat
deriving DecidableEq

/-- Free function `is_aligned(offset, size)` from `src/buffer.rs`:
`offset & (MIN_ALIGN - 1) == 0 && size & (MIN_ALIGN - 1) == 0`; masking by
`MIN_ALIGN - 1 = 511` is reduction mod the power of two 512. -/
def is_aligned (offset size : Nat) : Bool :=
  decide (offset % MIN_ALIGN = 0) && decide (size % MIN_ALIGN = 0)

/-- `Buffer::is_owned`: `self.size & (1 << 31) != 0` (with `size < 2^32`,
the top bit is set iff `2^31 ≤ size`). -/
def Buffer.is_owned (b : Buffer) : Bool :=
  decide (MAX_BUFFER_SIZE ≤ b.size)

/-- `Buffer::is_mutable`: `self.cap & (1 << 31) != 0`. -/
def Buffer.is_mutable (b : Buffer) : Bool :=
  decide (MAX_BUFFER_SIZE ≤ b.cap)

/-- `Buffer::len`: `self.size & (2^31 - 1)`, i.e. `size % 2^31`. -/
def Buffer.len (b : Buffer) : Nat :=
  b.size % MAX_BUFFER_SIZE

/-- `Buffer::capacity`: `self.cap & (2^31 - 1)`, i.e. `cap % 2^31`. -/
def Buffer.capacity (b : Buffer) : Nat :=
  b.cap % MAX_BUFFER_SIZE

/-- `Buffer::is_aligned`: alignment of the base address and the capacity. -/
def Buffer.is_aligned (b : Buffer) : Bool :=
  IoBuffer.is_aligned b.buf_ptr b.capacity

/-- Well-formedness of a live buffer in a store: the packed fields fit in
`u32` and the backing region has exactly `capacity` bytes (so in particular
`len ≤ capacity` whenever the length invariant holds). -/
def Buffer.wf (m : Mem) (b : Buffer) : Prop :=
  b.size < 2 ^ 32 ∧ b.cap < 2 ^ 32 ∧ b.len ≤ b.capacity ∧
  (m b.buf_ptr).length = b.capacity

/-- `Buffer::_alloc(align, size)`: asserts `size > 0`; for `align > 0` it
debug-asserts `align & (MIN_ALIGN - 1) == 0` and `size & (align - 1) == 0`
(the masks are reduction mod the power-of-two alignments in use) and calls
`posix_memalign`, otherwise `malloc`; allocation failure is `Err(ENOMEM)`.
On success the new buffer has `size = cap = size | 2^31` (owned, mutable,
`len = capacity = size`).  `memOk` models whether the allocator succeeds,
`ptr` the address it returns and `uninit` the indeterminate initial bytes
of the fresh region. -/
def Buffer._alloc (dbg : Bool) (align : Nat) (size : Int) (memOk : Bool)
    (ptr : Nat) (uninit : List Nat) (m : Mem) : Option (Except Errno (Mem × Buffer)) :=
  if ¬ (0 < size) then none
  else if 0 < align then
    if dbg ∧ ¬ (align % MIN_ALIGN = 0 ∧ size.toNat % align = 0) then none
    else if ¬ memOk then some (.error .ENOMEM)
    else some (.ok (setMem m ptr uninit,
      { buf_ptr := ptr, size := size.toNat + MAX_BUFFER_SIZE,
        cap := size.toNat + MAX_BUFFER_SIZE }))
  else
    if ¬ memOk then some (.error .ENOMEM)
    else some (.ok (setMem m ptr uninit,
      { buf_ptr := ptr, size := size.toNat + MAX_BUFFER_SIZE,
        cap := size.toNat + MAX_BUFFER_SIZE }))

/-- `Buffer::alloc(size)`: `_alloc(0, size)` (the `fail`/`rand` feature gates
are off in the default build). -/
def Buffer.alloc (dbg : Bool) (size : Int) (memOk : Bool) (ptr : Nat)
    (uninit : List Nat) (m : Mem) : Option (Except Errno (Mem × Buffer)) :=
  Buffer._alloc dbg 0 size memOk ptr uninit m

/-- `Buffer::aligned(size)`: `_alloc(MIN_ALIGN, size)`. -/
def Buffer.aligned (dbg : Bool) (size : Int) (memOk : Bool) (ptr : Nat)
    (uninit : List Nat) (m : Mem) : Option (Except Errno (Mem × Buffer)) :=
  Buffer._alloc dbg MIN_ALIGN size memOk ptr uninit m

/-- `Buffer::from_c_ref_mut(ptr, size)`: asserts `size >= 0` and
`ptr` non-null; not owned, mutable (`cap = size | 2^31`). -/
def Buffer.from_c_ref_mut (ptr : Nat) (size : Int) : Option Buffer :=
  if ¬ (0 ≤ size) then none
  else if ptr = 0 then none
  else some { buf_ptr := ptr, size := size.toNat, cap := size.toNat + MAX_BUFFER_SIZE }

/-- `Buffer::from_c_ref_const(ptr, size)`: asserts `size >= 0` and
`ptr` non-null; not owned, not mutable. -/
def Buffer.from_c_ref_const (ptr : Nat) (size : Int) : Option Buffer :=
  if ¬ (0 ≤ size) then none
  else if ptr = 0 then none
  else some { buf_ptr := ptr, size := size.toNat, cap := size.toNat }

/-- `Buffer::set_len(len)`: asserts `len < MAX_BUFFER_SIZE` and
`len <= self.cap` — note the comparison is against the raw packed `cap`
field (which still carries the `mutable` top bit), exactly as in the
source.  Then `size = (size & 2^31) | len`, written arithmetically. -/
def Buffer.set_len (b : Buffer) (len : Nat) : Option Buffer :=
  if ¬ (len < MAX_BUFFER_SIZE) then none
  else if ¬ (len ≤ b.cap) then none
  else some { b with size := b.size / MAX_BUFFER_SIZE * MAX_BUFFER_SIZE + len }

/-- `Buffer::as_ref`: the readable view, the first `len` bytes of the
backing region. -/
def Buffer.as_ref (m : Mem) (b : Buffer) : List Nat :=
  (m b.buf_ptr).take b.len

/-- `Buffer::as_mut`: the writable view of the first `len` bytes.  In a
checked build (`dbg = true`) it panics when the buffer is not mutable; an
unchecked build skips the check. -/
def Buffer.as_mut (dbg : Bool) (m : Mem) (b : Buffer) : Option (List Nat) :=
  if dbg ∧ b.is_mutable = false then none
  else some ((m b.buf_ptr).take b.len)

/-- Writing the (length-`len`) writable view back into the store: the view
aliases the first `len` bytes of the backing region, the tail beyond `len`
is untouched. -/
def Buffer.writeBack (m : Mem) (b : Buffer) (v : List Nat) : Mem :=
  setMem m b.buf_ptr (v ++ (m b.buf_ptr).drop b.len)

/-- `Buffer::copy_from(offset, src)`: obtains the writable view; when
`offset > 0` it asserts `offset < size` and runs
`safe_copy(&mut dst[offset..], src)`, otherwise `safe_copy(dst, src)`;
no byte outside the copied range is touched. -/
def Buffer.copy_from (dbg : Bool) (m : Mem) (b : Buffer) (offset : Nat)
    (src : List Nat) : Option Mem :=
  let size := b.len
  match Buffer.as_mut dbg m b with
  | none => none
  | some dst =>
    if 0 < offset then
      if ¬ (offset < size) then none
      else some (Buffer.writeBack m b (dst.take offset ++ (safe_copy (dst.drop offset) src).2))
    else
      some (Buffer.writeBack m b (safe_copy dst src).2)

/-- `Buffer::copy_and_clean(offset, other)`: obtains the writable view,
asserts `offset < size`; when `offset > 0` it zeroes `dst[0..offset]` and
copies into `dst[offset..]` (with `end = offset + count`), otherwise copies
into `dst` (with `end = count`); finally, when `size > end`, zeroes
`dst[end..]`. -/
def Buffer.copy_and_clean (dbg : Bool) (m : Mem) (b : Buffer) (offset : Nat)
    (other : List Nat) : Option Mem :=
  let size := b.len
  match Buffer.as_mut dbg m b with
  | none => none
  | some dst0 =>
    if ¬ (offset < size) then none
    else
      let step : Nat × List Nat :=
        if 0 < offset then
          let dst1 := set_zero (dst0.take offset) ++ dst0.drop offset
          let r := safe_copy (dst1.drop offset) other
          (offset + r.1, dst1.take offset ++ r.2)
        else
          safe_copy dst0 other
      let dst2 :=
        if step.1 < size then step.2.take step.1 ++ set_zero (step.2.drop step.1)
        else step.2
      some (Buffer.writeBack m b dst2)

/-- `Buffer::zero()`: `set_zero(self)` where `&mut Buffer` derefs through
`as_mut()` into the length-`len` writable view. -/
def Buffer.zero (dbg : Bool) (m : Mem) (b : Buffer) : Option Mem :=
  match Buffer.as_mut dbg m b with
  | none => none
  | some dst => some (Buffer.writeBack m b (set_zero dst))

/-- `Buffer::set_zero(offset, len)`: computes `end = offset + len` in
`usize` — a checked build panics on overflow, an unchecked build wraps mod
`2^64` — clamps `end` to `len()`, obtains the writable view; when
`offset > 0 || end < len()` it zeroes the sub-slice `buf[offset..end]` —
the slice operation panics when `offset > end` — otherwise zeroes the
whole view. -/
def Buffer.set_zero (dbg : Bool) (m : Mem) (b : Buffer) (offset len : Nat) :
    Option Mem :=
  let len0 := b.len
  if dbg ∧ USIZE_SIZE ≤ offset + len then none
  else
    let e0 := (offset + len) % USIZE_SIZE
    let e := if e0 > len0 then len0 else e0
    match Buffer.as_mut dbg m b with
    | none => none
    | some buf =>
      if 0 < offset ∨ e < len0 then
        if offset ≤ e then
          some (Buffer.writeBack m b
            (buf.take offset ++ IoBuffer.set_zero ((buf.take e).drop offset) ++ buf.drop e))
        else none
      else
        some (Buffer.writeBack m b (IoBuffer.set_zero buf))

/-- `impl Clone for Buffer`: allocates `capacity()` fresh bytes through
`aligned` when `is_aligned()` holds, else through `alloc` (`.unwrap()`
panics on allocation failure), then `set_len(len())` when `len()` differs
from `capacity()`, and finally `safe_copy(new_buf.as_mut(), self.as_ref())`.
`ptr`/`uninit` are the allocator's fresh address and initial contents. -/
def Buffer.clone (dbg : Bool) (m : Mem) (b : Buffer) (memOk : Bool)
    (ptr : Nat) (uninit : List Nat) : Option (Mem × Buffer) :=
  let allocRes :=
    if b.is_aligned then Buffer.aligned dbg (b.capacity : Int) memOk ptr uninit m
    else Buffer.alloc dbg (b.capacity : Int) memOk ptr uninit m
  match allocRes with
  | none => none
  | some (.error _) => none
  | some (.ok (m1, nb0)) =>
    match (if b.len ≠ b.capacity then Buffer.set_len nb0 b.len else some nb0) with
    | none => none
    | some nb =>
      match Buffer.as_mut dbg m1 nb with
      | none => none
      | some dst => some (Buffer.writeBack m1 nb (safe_copy dst (Buffer.as_ref m1 b)).2, nb)

/-- `impl Drop for Buffer`: the destructor frees the backing region iff
`is_owned()`; this predicate says whether dropping `b` performs a free. -/
def Buffer.drop_frees (b : Buffer) : Bool :=
  b.is_owned

/-- A growable byte vector (`Vec<u8>`) at the bridge boundary: its elements
(`data`, of length `Vec::len()`) and its backing capacity. -/
structure RVec where
  data : List Nat
  cap : Nat
deriving DecidableEq

/-- `impl Into<Vec<u8>> for Buffer`: panics when the buffer is not owned;
clears the owned bit (`size &= 2^31 - 1`, disarming the destructor of the
consumed value) and hands the backing region to a vector of the same
length and capacity.  Returns the disarmed buffer value alongside the
vector so the destructor state is observable. -/
def Buffer.into_vec (m : Mem) (b : Buffer) : Option (Buffer × RVec) :=
  if b.is_owned = false then none
  else
    let b' : Buffer := { b with size := b.size % MAX_BUFFER_SIZE }
    some (b', { data := (m b'.buf_ptr).take b'.len, cap := b'.capacity })

/-- `impl From<Vec<u8>> for Buffer`: asserts `len < 2^31` and `cap < 2^31`;
takes over the vector's backing allocation (`buf.leak()`) without copying;
owned and mutable, `size = len | 2^31`, `cap = cap | 2^31`.  `ptr` is the
vector's backing address and `junk` the indeterminate bytes of the
`cap - len` tail of its backing region. -/
def Buffer.from_vec (v : RVec) (ptr : Nat) (junk : List Nat) (m : Mem) :
    Option (Mem × Buffer) :=
  if ¬ (v.data.length < MAX_BUFFER_SIZE) then none
  else if ¬ (v.cap < MAX_BUFFER_SIZE) then none
  else some (setMem m ptr (v.data ++ junk),
    { buf_ptr := ptr, size := v.data.length + MAX_BUFFER_SIZE,
      cap := v.cap + MAX_BUFFER_SIZE })

/-! ### Claim C2 -/

/-- C2: `safe_copy(dst, src)` returns `min (len dst) (len src)`; afterwards the
first `min` bytes of `dst` equal the leading bytes of `src`, and every byte of
`dst` at an index at or beyond that count is unchanged (in particular the
length of `dst` is unchanged). -/
theorem C2_safe_copy_copies_min_and_preserves_rest (dst src : List Nat) :
    (safe_copy dst src).1 = min dst.length src.length ∧
    (safe_copy dst src).2.length = dst.length ∧
    (∀ i, i < min dst.length src.length → (safe_copy dst src).2[i]? = src[i]?) ∧
    (∀ i, min dst.length src.length ≤ i → (safe_copy dst src).2[i]? = dst[i]?) := by
  rw [safe_copy_eq]
  have hlen : (src.take (min dst.length src.length)).length = min dst.length src.length := by
    simp
  refine ⟨rfl, by simp, ?_, ?_⟩
  · intro i hi
    simp only [List.getElem?_append, hlen, if_pos hi, List.getElem?_take]
  · intro i hi
    rw [List.getElem?_append_right (by rw [hlen]; exact hi), hlen, List.getElem?_drop]
    congr 1
    omega

/-- C2 witness: concrete evaluation at `dst = [9, 9, 9]`, `src = [1, 2]`:
index 1 is inside the copied prefix, index 2 beyond it. -/
theorem C2_witness :
    (safe_copy [9, 9, 9] [1, 2]).1 = min 3 2 ∧
    (safe_copy [9, 9, 9] [1, 2]).2[1]? = [1, 2][1]? ∧
    (safe_copy [9, 9, 9] [1, 2]).2[2]? = [9, 9, 9][2]? :=
  ⟨(C2_safe_copy_copies_min_and_preserves_rest [9, 9, 9] [1, 2]).1,
   (C2_safe_copy_copies_min_and_preserves_rest [9, 9, 9] [1, 2]).2.2.1 1 (by decide),
   (C2_safe_copy_copies_min_and_preserves_rest [9, 9, 9] [1, 2]).2.2.2 2 (by decide)⟩

/-! ### Helper lemmas about views, write-back and list indexing -/

theorem Buffer.as_mut_of_mutable (dbg : Bool) (m : Mem) (b : Buffer)
    (h : b.is_mutable = true) :
    Buffer.as_mut dbg m b = some ((m b.buf_ptr).take b.len) := by
  simp [Buffer.as_mut, h]

theorem Buffer.writeBack_ptr (m : Mem) (b : Buffer) (v : List Nat) :
    Buffer.writeBack m b v b.buf_ptr = v ++ (m b.buf_ptr).drop b.len := by
  simp [Buffer.writeBack, setMem]

theorem Buffer.writeBack_other (m : Mem) (b : Buffer) (v : List Nat) (q : Nat)
    (h : q ≠ b.buf_ptr) :
    Buffer.writeBack m b v q = m q := by
  simp [Buffer.writeBack, setMem, h]

theorem getElem?_append3_left {p q s : List Nat} {i : Nat} (h : i < p.length) :
    (p ++ q ++ s)[i]? = p[i]? := by
  rw [List.append_assoc, List.getElem?_append, if_pos h]

theorem getElem?_append3_mid {p q s : List Nat} {i : Nat}
    (h1 : p.length ≤ i) (h2 : i < p.length + q.length) :
    (p ++ q ++ s)[i]? = q[i - p.length]? := by
  rw [List.append_assoc, List.getElem?_append_right h1, List.getElem?_append,
    if_pos (by omega)]

theorem getElem?_append3_right {p q s : List Nat} {i : Nat}
    (h : p.length + q.length ≤ i) :
    (p ++ q ++ s)[i]? = s[i - p.length - q.length]? := by
  rw [List.append_assoc, List.getElem?_append_right (by omega),
    List.getElem?_append_right (by omega)]

theorem getElem?_take_of_lt {l : List Nat} {n i : Nat} (h : i < n) :
    (l.take n)[i]? = l[i]? := by
  rw [List.getElem?_take, if_pos h]

theorem MAX_BUFFER_SIZE_eq : MAX_BUFFER_SIZE = 2147483648 := by
  norm_num [MAX_BUFFER_SIZE]

theorem USIZE_SIZE_eq : USIZE_SIZE = 18446744073709551616 := by
  norm_num [USIZE_SIZE]

/-! ### Claim C1 — `set_len` bound check -/

/-- C1 (code evaluation at the failing input): allocate a mutable owned
buffer of capacity 10, then `set_len(20)`.  The claim (and the function's
own doc comment) say this must fail, since `20 > capacity`; the code
compares `len` against the raw packed `cap` field, whose mutable top bit
is set, so the call succeeds and leaves `len() = 20 > capacity() = 10`. -/
theorem C1_set_len_cap_check_bypassed :
    ∃ r, Buffer.alloc true 10 true 1 (List.replicate 10 0) (fun _ => []) = some (.ok r) ∧
      (Buffer.set_len r.2 20).map (fun b2 => (b2.len, b2.capacity)) = some (20, 10) :=
  ⟨_, rfl, by decide⟩

/-! ### Claim C7 — `alloc` postcondition and failure mode -/

/-- C7: for `0 < size < 2^31`, a successful `alloc(size)` yields a buffer
with `len() = capacity() = size`, owned and mutable, whose backing region is
the `size`-byte block returned by the allocator; when the underlying
allocation fails, `alloc` returns the recoverable `Err(ENOMEM)` rather than
panicking. -/
theorem C7_alloc_spec (dbg : Bool) (size : Int) (ptr : Nat) (uninit : List Nat)
    (m : Mem) (h0 : 0 < size) (h1 : size < (MAX_BUFFER_SIZE : Int)) :
    (∃ m1 b, Buffer.alloc dbg size true ptr uninit m = some (.ok (m1, b)) ∧
      b.len = size.toNat ∧ b.capacity = size.toNat ∧
      b.is_owned = true ∧ b.is_mutable = true ∧ b.buf_ptr = ptr ∧ m1 = setMem m ptr uninit) ∧
    Buffer.alloc dbg size false ptr uninit m = some (.error .ENOMEM) := by
  have hn : size.toNat < MAX_BUFFER_SIZE := by
    rw [MAX_BUFFER_SIZE_eq]
    rw [MAX_BUFFER_SIZE_eq] at h1
    omega
  have heq : Buffer.alloc dbg size true ptr uninit m =
      some (.ok (setMem m ptr uninit,
        { buf_ptr := ptr, size := size.toNat + MAX_BUFFER_SIZE,
          cap := size.toNat + MAX_BUFFER_SIZE })) := by
    simp [Buffer.alloc, Buffer._alloc, h0]
  refine ⟨⟨_, _, heq, ?_, ?_, ?_, ?_, rfl, rfl⟩, ?_⟩
  · simp [Buffer.len, Nat.add_mod_left, Nat.mod_eq_of_lt hn]
  · simp [Buffer.capacity, Nat.add_mod_left, Nat.mod_eq_of_lt hn]
  · simp [Buffer.is_owned]
  · simp [Buffer.is_mutable]
  · simp [Buffer.alloc, Buffer._alloc, h0]

/-- C7 witness: `alloc(4)` at address 1 with indeterminate bytes `[9,9,9,9]`. -/
theorem C7_witness :
    (0 : Int) < 4 ∧
    ((∃ m1 b, Buffer.alloc false 4 true 1 [9, 9, 9, 9] (fun _ => []) = some (.ok (m1, b)) ∧
      b.len = (4 : Int).toNat ∧ b.capacity = (4 : Int).toNat ∧
      b.is_owned = true ∧ b.is_mutable = true ∧ b.buf_ptr = 1 ∧
      m1 = setMem (fun _ => []) 1 [9, 9, 9, 9]) ∧
    Buffer.alloc false 4 false 1 [9, 9, 9, 9] (fun _ => []) = some (.error .ENOMEM)) :=
  ⟨by decide, C7_alloc_spec false 4 1 [9, 9, 9, 9] (fun _ => []) (by decide)
    (by simp [MAX_BUFFER_SIZE])⟩

/-! ### Claim C9 — immutable wrap refuses a writable view in checked builds -/

/-- C9: a buffer wrapping an external immutable region (`from_c_ref_const`,
`size` in the `i32` range) is not mutable; requesting the writable view in a
checked build (`dbg = true`) panics with the mutability violation, while an
unchecked build skips the check and returns the writable view of the first
`len` bytes. -/
theorem C9_as_mut_const_ref (ptr : Nat) (size : Int) (m : Mem)
    (hp : ptr ≠ 0) (hs : 0 ≤ size) (hs2 : size < (MAX_BUFFER_SIZE : Int)) :
    ∃ b, Buffer.from_c_ref_const ptr size = some b ∧
      b.is_mutable = false ∧
      Buffer.as_mut true m b = none ∧
      Buffer.as_mut false m b = some ((m ptr).take b.len) := by
  have hn : size.toNat < MAX_BUFFER_SIZE := by
    rw [MAX_BUFFER_SIZE_eq]
    rw [MAX_BUFFER_SIZE_eq] at hs2
    omega
  have hb : Buffer.from_c_ref_const ptr size =
      some { buf_ptr := ptr, size := size.toNat, cap := size.toNat } := by
    simp [Buffer.from_c_ref_const, hs, hp]
  have hmut : Buffer.is_mutable { buf_ptr := ptr, size := size.toNat, cap := size.toNat } = false := by
    simp [Buffer.is_mutable]
    omega
  refine ⟨_, hb, hmut, ?_, ?_⟩
  · simp [Buffer.as_mut, hmut]
  · simp [Buffer.as_mut]

/-- C9 witness: the spec's scenario, an external immutable region of
10 bytes at address 7. -/
theorem C9_witness :
    (7 : Nat) ≠ 0 ∧
    ∃ b, Buffer.from_c_ref_const 7 10 = some b ∧
      b.is_mutable = false ∧
      Buffer.as_mut true (fun _ => []) b = none ∧
      Buffer.as_mut false (fun _ => []) b = some (((fun _ => ([] : List Nat)) 7).take b.len) :=
  ⟨by decide, C9_as_mut_const_ref 7 10 (fun _ => []) (by decide) (by decide)
    (by rw [MAX_BUFFER_SIZE_eq]; norm_num)⟩

/-! ### Claim C5 — vector round trip -/

/-- C5: for a byte vector whose length and capacity are below `2^31`,
`from_vec` followed by `into_vec` returns a vector with identical
length, capacity and byte content; the intermediate buffer is owned, and
the consumed buffer value handed back by `into_vec` has its destructor
disarmed (`drop_frees = false`), so the backing region is released at most
once — by the resulting vector. -/
theorem C5_vector_round_trip (v : RVec) (ptr : Nat) (junk : List Nat) (m : Mem)
    (h1 : v.data.length < MAX_BUFFER_SIZE) (h2 : v.cap < MAX_BUFFER_SIZE) :
    ∃ m1 b, Buffer.from_vec v ptr junk m = some (m1, b) ∧
      b.is_owned = true ∧
      ∃ b' v', Buffer.into_vec m1 b = some (b', v') ∧
        v' = v ∧ Buffer.drop_frees b' = false := by
  have hfrom : Buffer.from_vec v ptr junk m =
      some (setMem m ptr (v.data ++ junk),
        { buf_ptr := ptr, size := v.data.length + MAX_BUFFER_SIZE,
          cap := v.cap + MAX_BUFFER_SIZE }) := by
    simp [Buffer.from_vec, h1, h2]
  refine ⟨_, _, hfrom, by simp [Buffer.is_owned], ?_⟩
  have hlen : Buffer.len { buf_ptr := ptr, size := v.data.length, cap := v.cap + MAX_BUFFER_SIZE }
      = v.data.length := by
    simp [Buffer.len, Nat.mod_eq_of_lt h1]
  have hcap : Buffer.capacity { buf_ptr := ptr, size := v.data.length, cap := v.cap + MAX_BUFFER_SIZE }
      = v.cap := by
    simp [Buffer.capacity, Nat.add_mod_left, Nat.mod_eq_of_lt h2]
  have hinto : Buffer.into_vec (setMem m ptr (v.data ++ junk))
      { buf_ptr := ptr, size := v.data.length + MAX_BUFFER_SIZE,
        cap := v.cap + MAX_BUFFER_SIZE } =
      some ({ buf_ptr := ptr, size := v.data.length, cap := v.cap + MAX_BUFFER_SIZE },
        { data := v.data, cap := v.cap }) := by
    simp only [Buffer.into_vec, Buffer.is_owned, Buffer.len, Buffer.capacity, setMem_same]
    rw [if_neg (by simp)]
    simp only [Nat.add_mod_right, Nat.mod_eq_of_lt h1, Nat.mod_eq_of_lt h2]
    rw [List.take_left]
  refine ⟨_, _, hinto, rfl, ?_⟩
  simp [Buffer.drop_frees, Buffer.is_owned]
  omega

/-- C5 witness: the vector `[3, 1, 4]` with backing capacity 5 round-trips
through the buffer at address 2. -/
theorem C5_witness :
    ([3, 1, 4] : List Nat).length < MAX_BUFFER_SIZE ∧
    ∃ m1 b, Buffer.from_vec ⟨[3, 1, 4], 5⟩ 2 [8, 8] (fun _ => []) = some (m1, b) ∧
      b.is_owned = true ∧
      ∃ b' v', Buffer.into_vec m1 b = some (b', v') ∧
        v' = ⟨[3, 1, 4], 5⟩ ∧ Buffer.drop_frees b' = false :=
  ⟨by rw [MAX_BUFFER_SIZE_eq]; norm_num,
   C5_vector_round_trip ⟨[3, 1, 4], 5⟩ 2 [8, 8] (fun _ => [])
     (by rw [MAX_BUFFER_SIZE_eq]; norm_num) (by rw [MAX_BUFFER_SIZE_eq]; norm_num)⟩

/-! ### Claim C10 — whole-buffer `zero()` touches only the first `len` bytes -/

/-- C10: on a mutable buffer with `len() < capacity()`, `zero()` zeroes
exactly the first `len()` bytes of the backing region; the bytes from
`len()` up to `capacity()` (and every other region of the store) are
unchanged. -/
theorem C10_zero_zeroes_exactly_len (dbg : Bool) (m : Mem) (b : Buffer)
    (hwf : Buffer.wf m b) (hmut : b.is_mutable = true) (hlt : b.len < b.capacity) :
    ∃ m2, Buffer.zero dbg m b = some m2 ∧
      (∀ i, i < b.len → (m2 b.buf_ptr)[i]? = some 0) ∧
      (∀ i, b.len ≤ i → (m2 b.buf_ptr)[i]? = (m b.buf_ptr)[i]?) ∧
      (∀ q, q ≠ b.buf_ptr → m2 q = m q) := by
  obtain ⟨hsz, hcp, hlc, hreg⟩ := hwf
  have hview : ((m b.buf_ptr).take b.len).length = b.len := by
    simp [hreg]
    omega
  have hzero : Buffer.zero dbg m b =
      some (Buffer.writeBack m b (set_zero ((m b.buf_ptr).take b.len))) := by
    rw [Buffer.zero, Buffer.as_mut_of_mutable dbg m b hmut]
  have hm2 : Buffer.writeBack m b (set_zero ((m b.buf_ptr).take b.len)) b.buf_ptr =
      List.replicate b.len 0 ++ (m b.buf_ptr).drop b.len := by
    rw [Buffer.writeBack_ptr, set_zero, hview]
  refine ⟨_, hzero, ?_, ?_, ?_⟩
  · intro i hi
    rw [hm2, List.getElem?_append, if_pos (by simp; omega), List.getElem?_replicate,
      if_pos hi]
  · intro i hi
    rw [hm2, List.getElem?_append_right (by simp; omega), List.length_replicate,
      List.getElem?_drop]
    congr 1
    omega
  · intro q hq
    exact Buffer.writeBack_other m b _ q hq

/-- C10 witness: a mutable external buffer of length 2 over the 3-byte
region `[7, 7, 7]` at address 1: bytes 0 and 1 become 0, byte 2 keeps 7. -/
theorem C10_witness :
    (Buffer.wf (fun p => if p = 1 then [7, 7, 7] else [])
      { buf_ptr := 1, size := 2, cap := 3 + MAX_BUFFER_SIZE }) ∧
    ∃ m2, Buffer.zero true (fun p => if p = 1 then [7, 7, 7] else [])
        { buf_ptr := 1, size := 2, cap := 3 + MAX_BUFFER_SIZE } = some m2 ∧
      (m2 1)[1]? = some 0 ∧ (m2 1)[2]? = some 7 := by
  have hwf : Buffer.wf (fun p => if p = 1 then [7, 7, 7] else [])
      { buf_ptr := 1, size := 2, cap := 3 + MAX_BUFFER_SIZE } := by
    refine ⟨?_, ?_, ?_, ?_⟩ <;>
      simp [Buffer.len, Buffer.capacity, MAX_BUFFER_SIZE_eq]
  obtain ⟨m2, hz, hzero, hkeep, -⟩ :=
    C10_zero_zeroes_exactly_len true (fun p => if p = 1 then [7, 7, 7] else [])
      { buf_ptr := 1, size := 2, cap := 3 + MAX_BUFFER_SIZE } hwf
      (by simp [Buffer.is_mutable]) (by simp [Buffer.len, Buffer.capacity, MAX_BUFFER_SIZE_eq])
  refine ⟨hwf, m2, hz, ?_, ?_⟩
  · exact hzero 1 (by simp [Buffer.len, MAX_BUFFER_SIZE_eq])
  · rw [hkeep 2 (by simp [Buffer.len, MAX_BUFFER_SIZE_eq])]
    simp

/-- Indexing a list assembled from four chunks. -/
theorem getElem?_four (P Q S D : List Nat) (i : Nat) :
    ((P ++ Q ++ S) ++ D)[i]? =
      if i < P.length then P[i]?
      else if i < P.length + Q.length then Q[i - P.length]?
      else if i < P.length + Q.length + S.length then S[i - P.length - Q.length]?
      else D[i - P.length - Q.length - S.length]? := by
  by_cases h1 : i < P.length
  · rw [if_pos h1, List.getElem?_append, if_pos (by simp; omega),
      getElem?_append3_left h1]
  · rw [if_neg h1]
    by_cases h2 : i < P.length + Q.length
    · rw [if_pos h2, List.getElem?_append, if_pos (by simp; omega),
        getElem?_append3_mid (by omega) h2]
    · rw [if_neg h2]
      by_cases h3 : i < P.length + Q.length + S.length
      · rw [if_pos h3, List.getElem?_append, if_pos (by simp; omega),
          getElem?_append3_right (by omega)]
      · rw [if_neg h3, List.getElem?_append_right (by simp; omega)]
        congr 1
        simp
        omega

/-! ### Claim C8 — ranged `set_zero` -/

/-- C8 counterexample: on a mutable 2-byte buffer, `set_zero(3, 1)` — an
offset beyond `len()` — panics on the reversed slice range `buf[3..2]`; and
`set_zero(1, 2^64 - 1)` overflows the `usize` addition `offset + len`,
panicking in a checked build (overflow check) and in an unchecked build
(the wrapped `end = 0` reverses the slice range `buf[1..0]`).  The claim
instead states that every such call zeroes the clamped range and leaves
every byte outside it unchanged. -/
theorem C8_counterexample :
    Buffer.is_mutable { buf_ptr := 1, size := 2, cap := 2 + MAX_BUFFER_SIZE } = true ∧
    Buffer.len { buf_ptr := 1, size := 2, cap := 2 + MAX_BUFFER_SIZE } = 2 ∧
    Buffer.set_zero true (fun p => if p = 1 then [7, 7] else [])
      { buf_ptr := 1, size := 2, cap := 2 + MAX_BUFFER_SIZE } 3 1 = none ∧
    Buffer.set_zero true (fun p => if p = 1 then [7, 7] else [])
      { buf_ptr := 1, size := 2, cap := 2 + MAX_BUFFER_SIZE } 1 (2 ^ 64 - 1) = none ∧
    Buffer.set_zero false (fun p => if p = 1 then [7, 7] else [])
      { buf_ptr := 1, size := 2, cap := 2 + MAX_BUFFER_SIZE } 1 (2 ^ 64 - 1) = none := by
  refine ⟨by decide, by decide, by rfl, by rfl, by rfl⟩

/-- C8 (amended): for a mutable buffer, `offset ≤ len()`, and `len` with
`offset + len` inside the `usize` range (no overflow), the ranged zero
fills exactly the bytes at indices `offset..min(offset+len, len())` with
zero and leaves every byte outside that clamped sub-range — below
`offset`, from the clamped end up to `capacity()`, and in every other
region — unchanged.  (For `offset > len()` the slice operation panics, and
for an overflowing `offset + len` both build modes panic; see the
counterexample.) -/
theorem C8_set_zero_clamped (dbg : Bool) (m : Mem) (b : Buffer) (offset len : Nat)
    (hwf : Buffer.wf m b) (hmut : b.is_mutable = true) (hoff : offset ≤ b.len)
    (hnof : offset + len < USIZE_SIZE) :
    ∃ m2, Buffer.set_zero dbg m b offset len = some m2 ∧
      (∀ i, i < offset → (m2 b.buf_ptr)[i]? = (m b.buf_ptr)[i]?) ∧
      (∀ i, offset ≤ i → i < min (offset + len) b.len → (m2 b.buf_ptr)[i]? = some 0) ∧
      (∀ i, min (offset + len) b.len ≤ i → (m2 b.buf_ptr)[i]? = (m b.buf_ptr)[i]?) ∧
      (∀ q, q ≠ b.buf_ptr → m2 q = m q) := by
  obtain ⟨hsz, hcp, hlc, hreg⟩ := hwf
  set sz := b.len with hszdef
  set e := min (offset + len) sz with hedef
  set buf := (m b.buf_ptr).take sz with hbufdef
  have hbuflen : buf.length = sz := by
    rw [hbufdef]
    simp [hreg]
    omega
  have hesz : e ≤ sz := by omega
  have hoe : offset ≤ e := by omega
  have hmod : (offset + len) % USIZE_SIZE = offset + len := Nat.mod_eq_of_lt hnof
  have hclamp : (if offset + len > sz then sz else offset + len) = e := by
    rw [hedef]
    split <;> omega
  have hv : Buffer.set_zero dbg m b offset len =
      some (Buffer.writeBack m b
        (buf.take offset ++ List.replicate (e - offset) 0 ++ buf.drop e)) := by
    rw [Buffer.set_zero, if_neg (by rintro ⟨-, h⟩; omega)]
    simp only [Buffer.as_mut_of_mutable dbg m b hmut, hmod, ← hbufdef, ← hszdef, hclamp]
    by_cases hcase : 0 < offset ∨ e < sz
    · rw [if_pos hcase, if_pos hoe]
      have hmidlen : ((buf.take e).drop offset).length = e - offset := by
        simp [hbuflen]
        omega
      rw [set_zero, hmidlen]
    · rw [if_neg hcase]
      push_neg at hcase
      have ho0 : offset = 0 := by omega
      have hes : e = sz := by omega
      rw [set_zero, hbuflen, ho0, hes, List.take_zero,
        List.drop_eq_nil_of_le (by omega), Nat.sub_zero]
      simp
  have htk : (buf.take offset).length = offset := by
    simp [hbuflen]
    omega
  have hdp : (buf.drop e).length = sz - e := by
    simp [hbuflen]
  have hm2 : Buffer.writeBack m b
      (buf.take offset ++ List.replicate (e - offset) 0 ++ buf.drop e) b.buf_ptr =
      (buf.take offset ++ List.replicate (e - offset) 0 ++ buf.drop e) ++
        (m b.buf_ptr).drop sz := by
    rw [Buffer.writeBack_ptr]
  refine ⟨_, hv, ?_, ?_, ?_, ?_⟩
  · intro i hi
    rw [hm2, getElem?_four, if_pos (by rw [htk]; omega), getElem?_take_of_lt hi,
      hbufdef, getElem?_take_of_lt (by omega)]
  · intro i hi hie
    rw [hm2, getElem?_four, if_neg (by rw [htk]; omega),
      if_pos (by rw [htk, List.length_replicate]; omega), htk,
      List.getElem?_replicate, if_pos (by omega)]
  · intro i hi
    rw [hm2, getElem?_four]
    by_cases hisz : i < sz
    · rw [if_neg (by rw [htk]; omega),
        if_neg (by rw [htk, List.length_replicate]; omega),
        if_pos (by rw [htk, List.length_replicate, hdp]; omega), htk,
        List.length_replicate, List.getElem?_drop]
      have hidx : e + (i - offset - (e - offset)) = i := by omega
      rw [hidx, hbufdef, getElem?_take_of_lt hisz]
    · rw [if_neg (by rw [htk]; omega),
        if_neg (by rw [htk, List.length_replicate]; omega),
        if_neg (by rw [htk, List.length_replicate, hdp]; omega), htk,
        List.length_replicate, hdp, List.getElem?_drop]
      have hidx : sz + (i - offset - (e - offset) - (sz - e)) = i := by omega
      rw [hidx]
  · intro q hq
    exact Buffer.writeBack_other m b _ q hq

/-- C8 witness: a mutable 4-byte buffer `[7, 7, 7, 7]` at address 1,
`set_zero(1, 9)` — the range clamps to `1..4`. -/
theorem C8_witness :
    (1 : Nat) ≤ Buffer.len { buf_ptr := 1, size := 4, cap := 4 + MAX_BUFFER_SIZE } ∧
    ∃ m2, Buffer.set_zero true (fun p => if p = 1 then [7, 7, 7, 7] else [])
        { buf_ptr := 1, size := 4, cap := 4 + MAX_BUFFER_SIZE } 1 9 = some m2 ∧
      (m2 1)[0]? = ((fun p => if p = 1 then ([7, 7, 7, 7] : List Nat) else []) 1)[0]? ∧
      (m2 1)[3]? = some 0 := by
  have hwf : Buffer.wf (fun p => if p = 1 then [7, 7, 7, 7] else [])
      { buf_ptr := 1, size := 4, cap := 4 + MAX_BUFFER_SIZE } := by
    refine ⟨?_, ?_, ?_, ?_⟩ <;>
      simp [Buffer.len, Buffer.capacity, MAX_BUFFER_SIZE_eq]
  have hlen : Buffer.len { buf_ptr := 1, size := 4, cap := 4 + MAX_BUFFER_SIZE } = 4 := by
    simp [Buffer.len, MAX_BUFFER_SIZE_eq]
  obtain ⟨m2, hz, hlow, hmid, -, -⟩ :=
    C8_set_zero_clamped true (fun p => if p = 1 then [7, 7, 7, 7] else [])
      { buf_ptr := 1, size := 4, cap := 4 + MAX_BUFFER_SIZE } 1 9 hwf
      (by simp [Buffer.is_mutable]) (by rw [hlen]; omega)
      (by rw [USIZE_SIZE_eq]; omega)
  refine ⟨by rw [hlen]; omega, m2, hz, ?_, ?_⟩
  · exact hlow 0 (by omega)
  · exact hmid 3 (by omega) (by rw [hlen]; omega)

/-! ### Claim C6 — `copy_from` offset check -/

/-- C6 (code evaluation at the failing input): on a mutable buffer of
length 0 (an empty external mutable wrap), `copy_from(0, src)` has
`offset >= len()`, so the claim — and the function's own
doc comment — say it must panic; but the `assert!(offset < size)` sits
inside the `offset > 0` branch, so the call succeeds as a zero-byte copy. -/
theorem C6_copy_from_zero_offset_no_panic :
    ∃ b, Buffer.from_c_ref_mut 1 0 = some b ∧
      Buffer.len b = 0 ∧ b.is_mutable = true ∧
      (Buffer.copy_from true (fun _ => []) b 0 [5]).isSome = true :=
  ⟨_, rfl, by decide, by decide, by rfl⟩

/-! ### Claim C3 — `copy_and_clean` -/

/-- C3: on a mutable buffer, `copy_and_clean(offset, src)` panics iff
`offset ≥ len()`; for `offset < len()`, with
`count = min(len() - offset, len src)`, every readable byte below `offset`
or at or beyond `offset + count` becomes 0, the bytes in
`offset..offset+count` equal the leading bytes of `src`, and the region
beyond `len()` as well as all other regions are unchanged. -/
theorem C3_copy_and_clean_spec (dbg : Bool) (m : Mem) (b : Buffer) (offset : Nat)
    (src : List Nat) (hwf : Buffer.wf m b) (hmut : b.is_mutable = true) :
    (b.len ≤ offset → Buffer.copy_and_clean dbg m b offset src = none) ∧
    (offset < b.len →
      ∃ m2, Buffer.copy_and_clean dbg m b offset src = some m2 ∧
        (∀ i, i < b.len → i < offset → (m2 b.buf_ptr)[i]? = some 0) ∧
        (∀ i, offset ≤ i → i < offset + min (b.len - offset) src.length →
          (m2 b.buf_ptr)[i]? = src[i - offset]?) ∧
        (∀ i, i < b.len → offset + min (b.len - offset) src.length ≤ i →
          (m2 b.buf_ptr)[i]? = some 0) ∧
        (∀ i, b.len ≤ i → (m2 b.buf_ptr)[i]? = (m b.buf_ptr)[i]?) ∧
        (∀ q, q ≠ b.buf_ptr → m2 q = m q)) := by
  obtain ⟨hsz, hcp, hlc, hreg⟩ := hwf
  set sz := b.len with hszdef
  set buf := (m b.buf_ptr).take sz with hbufdef
  have hbuflen : buf.length = sz := by
    rw [hbufdef]
    simp [hreg]
    omega
  constructor
  · intro hge
    rw [Buffer.copy_and_clean]
    simp only [Buffer.as_mut_of_mutable dbg m b hmut, ← hszdef]
    rw [if_pos (by omega)]
  · intro hlt
    set count := min (sz - offset) src.length with hcountdef
    have hcount1 : count ≤ sz - offset := by omega
    have hcount2 : count ≤ src.length := by omega
    have hkey : Buffer.copy_and_clean dbg m b offset src =
        some (Buffer.writeBack m b
          (List.replicate offset 0 ++ src.take count ++
            List.replicate (sz - offset - count) 0)) := by
      rw [Buffer.copy_and_clean]
      simp only [Buffer.as_mut_of_mutable dbg m b hmut, ← hszdef, ← hbufdef]
      rw [if_neg (not_not.mpr hlt)]
      have hdroplen : (buf.drop offset).length = sz - offset := by
        simp [hbuflen]
      have hsc : safe_copy (buf.drop offset) src =
          (count, src.take count ++ buf.drop (offset + count)) := by
        rw [safe_copy_eq, hdroplen, ← hcountdef, List.drop_drop]
      by_cases hoff : 0 < offset
      · rw [if_pos hoff]
        have htk0 : (buf.take offset).length = offset := by
          simp [hbuflen]
          omega
        have hzlen : set_zero (buf.take offset) = List.replicate offset 0 := by
          rw [set_zero, htk0]
        have hdrop1 : (List.replicate offset 0 ++ buf.drop offset).drop offset =
            buf.drop offset := List.drop_left' (by simp)
        have htake1 : (List.replicate offset 0 ++ buf.drop offset).take offset =
            List.replicate offset 0 := List.take_left' (by simp)
        simp only [hzlen, hdrop1, htake1, hsc]
        by_cases hend : offset + count < sz
        · rw [if_pos hend]
          have h1 : (List.replicate offset 0 ++ src.take count : List Nat).length = offset + count := by
            simp
            omega
          have hlen2 : (List.replicate offset 0 ++ (src.take count ++ buf.drop (offset + count))).take (offset + count) =
              List.replicate offset 0 ++ src.take count := by
            rw [← List.append_assoc]
            exact List.take_left' h1
          have hlen3 : (List.replicate offset 0 ++ (src.take count ++ buf.drop (offset + count))).drop (offset + count) =
              buf.drop (offset + count) := by
            rw [← List.append_assoc]
            exact List.drop_left' h1
          rw [hlen2, hlen3, set_zero]
          have h4 : (buf.drop (offset + count)).length = sz - offset - count := by
            simp [hbuflen]
            omega
          rw [h4, List.append_assoc]
        · rw [if_neg hend]
          have hend' : offset + count = sz := by omega
          have hdropnil : buf.drop (offset + count) = [] := by
            apply List.drop_eq_nil_of_le
            omega
          have hrepnil : (List.replicate (sz - offset - count) 0 : List Nat) = [] := by
            have : sz - offset - count = 0 := by omega
            rw [this, List.replicate_zero]
          rw [hdropnil, hrepnil]
          simp
      · rw [if_neg hoff]
        have hoff0 : offset = 0 := by omega
        subst hoff0
        have hc' : count = sz ⊓ src.length := by omega
        have hsc0 : safe_copy buf src = (count, src.take count ++ buf.drop count) := by
          rw [safe_copy_eq, hbuflen, ← hc']
        simp only [Nat.zero_add] at hsc
        simp only [hsc0]
        by_cases hend : count < sz
        · rw [if_pos hend]
          have h1 : (src.take count : List Nat).length = count := by
            simp
            omega
          have hlen2 : (src.take count ++ buf.drop count).take count = src.take count :=
            List.take_left' h1
          have hlen3 : (src.take count ++ buf.drop count).drop count = buf.drop count :=
            List.drop_left' h1
          rw [hlen2, hlen3, set_zero]
          have h4 : (buf.drop count).length = sz - count := by
            simp [hbuflen]
          rw [h4]
          simp
        · rw [if_neg hend]
          have hend' : count = sz := by omega
          have hdropnil : buf.drop count = [] := by
            apply List.drop_eq_nil_of_le
            omega
          have hrepnil : (List.replicate (sz - 0 - count) 0 : List Nat) = [] := by
            have : sz - 0 - count = 0 := by omega
            rw [this, List.replicate_zero]
          rw [hdropnil, hrepnil]
          simp
    have hP : (List.replicate offset 0 : List Nat).length = offset := by simp
    have hQ : (src.take count : List Nat).length = count := by
      simp
      omega
    have hS : (List.replicate (sz - offset - count) 0 : List Nat).length = sz - offset - count := by
      simp
    have hm2 : Buffer.writeBack m b
        (List.replicate offset 0 ++ src.take count ++
          List.replicate (sz - offset - count) 0) b.buf_ptr =
        (List.replicate offset 0 ++ src.take count ++
          List.replicate (sz - offset - count) 0) ++ (m b.buf_ptr).drop sz := by
      rw [Buffer.writeBack_ptr]
    refine ⟨_, hkey, ?_, ?_, ?_, ?_, ?_⟩
    · intro i hisz hio
      rw [hm2, getElem?_four, if_pos (by rw [hP]; omega), List.getElem?_replicate,
        if_pos (by omega)]
    · intro i hio hic
      rw [hm2, getElem?_four, if_neg (by rw [hP]; omega),
        if_pos (by rw [hP, hQ]; omega), hP, getElem?_take_of_lt (by omega)]
    · intro i hisz hic
      rw [hm2, getElem?_four, if_neg (by rw [hP]; omega),
        if_neg (by rw [hP, hQ]; omega),
        if_pos (by rw [hP, hQ, hS]; omega), hP, hQ,
        List.getElem?_replicate, if_pos (by omega)]
    · intro i hisz
      rw [hm2, getElem?_four, if_neg (by rw [hP]; omega),
        if_neg (by rw [hP, hQ]; omega),
        if_neg (by rw [hP, hQ, hS]; omega), hP, hQ, hS, List.getElem?_drop]
      congr 1
      omega
    · intro q hq
      exact Buffer.writeBack_other m b _ q hq

/-- C3 witness: a mutable 3-byte buffer `[1, 1, 1]` at address 1,
`copy_and_clean(1, [9])`: byte 0 becomes 0, byte 1 becomes 9, byte 2
(beyond the copied range) becomes 0. -/
theorem C3_witness :
    (1 : Nat) < Buffer.len { buf_ptr := 1, size := 3, cap := 3 + MAX_BUFFER_SIZE } ∧
    ∃ m2, Buffer.copy_and_clean true (fun p => if p = 1 then [1, 1, 1] else [])
        { buf_ptr := 1, size := 3, cap := 3 + MAX_BUFFER_SIZE } 1 [9] = some m2 ∧
      (m2 1)[0]? = some 0 ∧ (m2 1)[1]? = ([9] : List Nat)[0]? ∧ (m2 1)[2]? = some 0 := by
  have hwf : Buffer.wf (fun p => if p = 1 then [1, 1, 1] else [])
      { buf_ptr := 1, size := 3, cap := 3 + MAX_BUFFER_SIZE } := by
    refine ⟨?_, ?_, ?_, ?_⟩ <;>
      simp [Buffer.len, Buffer.capacity, MAX_BUFFER_SIZE_eq]
  have hlen : Buffer.len { buf_ptr := 1, size := 3, cap := 3 + MAX_BUFFER_SIZE } = 3 := by
    simp [Buffer.len, MAX_BUFFER_SIZE_eq]
  obtain ⟨-, hpos⟩ :=
    C3_copy_and_clean_spec true (fun p => if p = 1 then [1, 1, 1] else [])
      { buf_ptr := 1, size := 3, cap := 3 + MAX_BUFFER_SIZE } 1 [9] hwf
      (by simp [Buffer.is_mutable])
  obtain ⟨m2, hcc, hzlow, hcopy, hzhigh, -, -⟩ := hpos (by rw [hlen]; omega)
  refine ⟨by rw [hlen]; omega, m2, hcc, ?_, ?_, ?_⟩
  · exact hzlow 0 (by rw [hlen]; omega) (by omega)
  · have h := hcopy 1 (by omega) (by rw [hlen]; simp)
    simpa using h
  · exact hzhigh 2 (by rw [hlen]; omega) (by rw [hlen]; simp)

/-! ### Claim C4 — `clone` -/

/-- C4 counterexample: cloning a zero-capacity buffer — a legal variant,
`from_c_ref_mut(ptr, 0)` — does not produce a new buffer: `clone` calls
`alloc(0)`, whose `assert!(size > 0)` panics, even with a working
allocator. -/
theorem C4_counterexample :
    ∃ b, Buffer.from_c_ref_mut 1 0 = some b ∧
      Buffer.clone true (fun _ => []) b true 2 [] = none :=
  ⟨_, rfl, by rfl⟩

/-- C4 (amended): for a buffer of any variant with `capacity() > 0`, under
a working allocator returning a fresh region (`ptr` distinct from the
source's address, `uninit` of capacity length), `clone` produces a new
owned, mutable buffer of the same length and capacity at the fresh
address; its readable bytes equal the source's readable bytes, the
source's bytes are untouched, only `len()` bytes are copied (the clone's
region beyond `len()` keeps the allocator-provided contents), and writes
to either buffer's region leave the other's region unchanged. -/
theorem C4_clone_spec (dbg : Bool) (m : Mem) (b : Buffer) (ptr : Nat)
    (uninit : List Nat) (hwf : Buffer.wf m b) (hcap : 0 < b.capacity)
    (hfresh : ptr ≠ b.buf_ptr) (hun : uninit.length = b.capacity) :
    ∃ m2 nb, Buffer.clone dbg m b true ptr uninit = some (m2, nb) ∧
      nb.is_owned = true ∧ nb.is_mutable = true ∧
      nb.len = b.len ∧ nb.capacity = b.capacity ∧ nb.buf_ptr = ptr ∧
      Buffer.as_ref m2 nb = Buffer.as_ref m b ∧
      Buffer.as_ref m2 b = Buffer.as_ref m b ∧
      (m2 ptr).drop b.len = uninit.drop b.len ∧
      (∀ v, setMem m2 nb.buf_ptr v b.buf_ptr = m2 b.buf_ptr) ∧
      (∀ v, setMem m2 b.buf_ptr v nb.buf_ptr = m2 nb.buf_ptr) := by
  obtain ⟨hsz, hcp, hlc, hreg⟩ := hwf
  have hcaplt : b.capacity < MAX_BUFFER_SIZE := by
    have : b.cap % MAX_BUFFER_SIZE < MAX_BUFFER_SIZE :=
      Nat.mod_lt _ (by rw [MAX_BUFFER_SIZE_eq]; omega)
    exact this
  have hlenlt : b.len < MAX_BUFFER_SIZE := by
    have : b.size % MAX_BUFFER_SIZE < MAX_BUFFER_SIZE :=
      Nat.mod_lt _ (by rw [MAX_BUFFER_SIZE_eq]; omega)
    exact this
  have hcapInt : (0 : Int) < (b.capacity : Int) := by exact_mod_cast hcap
  have htoNat : ((b.capacity : Int)).toNat = b.capacity := Int.toNat_natCast _
  -- the allocation step yields the same fresh buffer in both branches
  have halloc :
      (if b.is_aligned then Buffer.aligned dbg (b.capacity : Int) true ptr uninit m
       else Buffer.alloc dbg (b.capacity : Int) true ptr uninit m) =
      some (.ok (setMem m ptr uninit,
        { buf_ptr := ptr, size := b.capacity + MAX_BUFFER_SIZE,
          cap := b.capacity + MAX_BUFFER_SIZE })) := by
    by_cases hal : b.is_aligned
    · rw [if_pos hal]
      have hal2 : b.capacity % MIN_ALIGN = 0 := by
        have := hal
        rw [Buffer.is_aligned, is_aligned] at this
        simp at this
        exact this.2
      rw [Buffer.aligned, Buffer._alloc, if_neg (by omega), if_pos (by norm_num [MIN_ALIGN]),
        if_neg (by simp [hal2, htoNat]), if_neg (by simp), htoNat]
    · rw [if_neg hal]
      rw [Buffer.alloc, Buffer._alloc, if_neg (by omega), if_neg (by norm_num),
        if_neg (by simp), htoNat]
  set nb0 : Buffer := ⟨ptr, b.capacity + MAX_BUFFER_SIZE, b.capacity + MAX_BUFFER_SIZE⟩
    with hnb0def
  -- the buffer after the conditional set_len
  have hnb : (if b.len ≠ b.capacity then Buffer.set_len nb0 b.len else some nb0) =
      some ⟨ptr, b.len + MAX_BUFFER_SIZE, b.capacity + MAX_BUFFER_SIZE⟩ := by
    rw [hnb0def]
    by_cases hne : b.len ≠ b.capacity
    · rw [if_pos hne, Buffer.set_len, if_neg (by omega), if_neg (by simp; omega)]
      have hdiv : (b.capacity + MAX_BUFFER_SIZE) / MAX_BUFFER_SIZE = 1 := by
        rw [Nat.add_div_right _ (by rw [MAX_BUFFER_SIZE_eq]; omega),
          Nat.div_eq_of_lt hcaplt]
      simp only [hdiv, Nat.one_mul]
      rw [Nat.add_comm]
    · rw [if_neg hne]
      push_neg at hne
      rw [hne]
  set nb : Buffer := ⟨ptr, b.len + MAX_BUFFER_SIZE, b.capacity + MAX_BUFFER_SIZE⟩
    with hnbdef
  have hnblen : nb.len = b.len := by
    rw [hnbdef]
    simp [Buffer.len, Nat.add_mod_right, Nat.mod_eq_of_lt hlenlt]
  have hnbmut : nb.is_mutable = true := by
    rw [hnbdef]
    simp [Buffer.is_mutable]
  have hm1ptr : setMem m ptr uninit ptr = uninit := setMem_same _ _ _
  have hm1src : setMem m ptr uninit b.buf_ptr = m b.buf_ptr :=
    setMem_other _ _ _ _ (fun h => hfresh h.symm)
  have hsrc : Buffer.as_ref (setMem m ptr uninit) b = Buffer.as_ref m b := by
    rw [Buffer.as_ref, Buffer.as_ref, hm1src]
  have hsrclen : (Buffer.as_ref m b).length = b.len := by
    rw [Buffer.as_ref]
    simp [hreg]
    omega
  have hdstlen : (uninit.take nb.len).length = b.len := by
    simp [hnblen, hun]
    omega
  have hcopy : safe_copy (uninit.take nb.len) (Buffer.as_ref (setMem m ptr uninit) b) =
      (b.len, Buffer.as_ref m b ++ (uninit.take nb.len).drop b.len) := by
    rw [hsrc, safe_copy_eq, hdstlen, hsrclen]
    simp only [Nat.min_self]
    rw [List.take_of_length_le (by rw [hsrclen])]
  have hcopy2 : (safe_copy (uninit.take nb.len) (Buffer.as_ref (setMem m ptr uninit) b)).2 =
      Buffer.as_ref m b := by
    rw [hcopy]
    have : (uninit.take nb.len).drop b.len = [] :=
      List.drop_eq_nil_of_le (by rw [hdstlen])
    simp [this]
  have hclone : Buffer.clone dbg m b true ptr uninit =
      some (Buffer.writeBack (setMem m ptr uninit) nb (Buffer.as_ref m b), nb) := by
    rw [Buffer.clone]
    simp only [halloc, hnb]
    rw [Buffer.as_mut_of_mutable dbg _ nb hnbmut]
    simp only [hnbdef]
    rw [← hnbdef, hm1ptr, hcopy2]
  have hm2ptr : Buffer.writeBack (setMem m ptr uninit) nb (Buffer.as_ref m b) ptr =
      Buffer.as_ref m b ++ uninit.drop b.len := by
    have : nb.buf_ptr = ptr := by rw [hnbdef]
    rw [Buffer.writeBack]
    rw [this, setMem_same, hm1ptr, hnblen]
  have hm2src : Buffer.writeBack (setMem m ptr uninit) nb (Buffer.as_ref m b) b.buf_ptr =
      m b.buf_ptr := by
    rw [Buffer.writeBack]
    have hnbp : nb.buf_ptr = ptr := by rw [hnbdef]
    rw [hnbp, setMem_other _ _ _ _ (fun h => hfresh h.symm), hm1src]
  refine ⟨_, nb, hclone, ?_, hnbmut, hnblen, ?_, by rw [hnbdef], ?_, ?_, ?_, ?_, ?_⟩
  · rw [hnbdef]
    simp [Buffer.is_owned]
  · rw [hnbdef]
    simp [Buffer.capacity, Nat.add_mod_right, Nat.mod_eq_of_lt hcaplt]
  · rw [Buffer.as_ref]
    have hnbp : nb.buf_ptr = ptr := by rw [hnbdef]
    rw [hnbp, hm2ptr, hnblen, List.take_left' hsrclen]
  · rw [Buffer.as_ref, hm2src, Buffer.as_ref]
  · rw [hm2ptr, List.drop_left' hsrclen]
  · intro v
    have hnbp : nb.buf_ptr = ptr := by rw [hnbdef]
    rw [hnbp, setMem_other _ _ _ _ (fun h => hfresh h.symm)]
  · intro v
    have hnbp : nb.buf_ptr = ptr := by rw [hnbdef]
    rw [hnbp, setMem_other _ _ _ _ hfresh]

/-- C4 witness: cloning the external mutable 3-byte buffer over `[5, 6, 7]`
at address 1 into the fresh region at address 2. -/
theorem C4_witness :
    (0 : Nat) < Buffer.capacity { buf_ptr := 1, size := 3, cap := 3 + MAX_BUFFER_SIZE } ∧
    ∃ m2 nb, Buffer.clone true (fun p => if p = 1 then [5, 6, 7] else [])
        { buf_ptr := 1, size := 3, cap := 3 + MAX_BUFFER_SIZE } true 2 [0, 0, 0] =
        some (m2, nb) ∧
      nb.is_owned = true ∧ nb.is_mutable = true ∧
      nb.len = Buffer.len { buf_ptr := 1, size := 3, cap := 3 + MAX_BUFFER_SIZE } ∧
      Buffer.as_ref m2 nb =
        Buffer.as_ref (fun p => if p = 1 then [5, 6, 7] else [])
          { buf_ptr := 1, size := 3, cap := 3 + MAX_BUFFER_SIZE } := by
  have hwf : Buffer.wf (fun p => if p = 1 then [5, 6, 7] else [])
      { buf_ptr := 1, size := 3, cap := 3 + MAX_BUFFER_SIZE } := by
    refine ⟨?_, ?_, ?_, ?_⟩ <;>
      simp [Buffer.len, Buffer.capacity, MAX_BUFFER_SIZE_eq]
  have hcap : (0 : Nat) < Buffer.capacity { buf_ptr := 1, size := 3, cap := 3 + MAX_BUFFER_SIZE } := by
    simp [Buffer.capacity, MAX_BUFFER_SIZE_eq]
  obtain ⟨m2, nb, hcl, how, hmu, hlen, -, -, href, -, -, -, -⟩ :=
    C4_clone_spec true (fun p => if p = 1 then [5, 6, 7] else [])
      { buf_ptr := 1, size := 3, cap := 3 + MAX_BUFFER_SIZE } 2 [0, 0, 0] hwf hcap
      (by decide) (by simp [Buffer.capacity, MAX_BUFFER_SIZE_eq])
  exact ⟨hcap, m2, nb, hcl, how, hmu, hlen, href⟩

end IoBuffer
